import Mathlib

/-!
Verification of the orchestration core of the Drug-Repurposing multi-agent
system (src/orchestration/master_agent.py, src/orchestration/graph.py,
src/orchestration/state.py, src/agents/base_agent.py, src/schemas/models.py,
src/data/synthetic_data.py).

Python strings are modelled as `List Char`.  The model covers the ASCII
fragment of Python's text semantics: `Char.toLower` agrees with `str.lower`
and the word-character class `[a-zA-Z0-9_]` agrees with `\w` on ASCII input
(theorems about `\b` word boundaries therefore carry an `asciiOnly`
hypothesis).  The whitespace class models Python's `\s` exactly, including
the Unicode whitespace code points.  Nondeterministic inputs of the source
(`uuid.uuid4` task ids, `datetime.now()` timestamps, the optional LLM
collaborator) are threaded as explicit parameters.
-/

namespace DrugRepo

/-- Python strings are modelled as lists of characters. -/
abbrev Str := List Char

/-- Coerce a Lean string literal to the model's string type. -/
def str (s : String) : Str := s.data

/-- ASCII lower-casing, the fragment of Python's `str.lower` used here. -/
def lowerC (c : Char) : Char := c.toLower

/-- Lower-case a whole string (models `str.lower()` on ASCII text). -/
def lowerL (s : Str) : Str := s.map lowerC

/-- The string consists of ASCII characters only. -/
def asciiOnly (s : Str) : Bool := s.all (fun c => c.toNat < 128)

/-- `leadsWith p s` holds when `p` is an initial segment of `s`
(models `str.startswith` and anchored pattern matching). -/
def leadsWith : Str → Str → Bool
  | [], _ => true
  | _ :: _, [] => false
  | a :: as, b :: bs => a == b && leadsWith as bs

/-- Substring containment, models Python's `needle in haystack`. -/
def hasSub (needle : Str) : Str → Bool
  | [] => leadsWith needle []
  | c :: t => leadsWith needle (c :: t) || hasSub needle t

/-- The characters matched by Python's `\s` class (and by `str.strip()`):
ASCII whitespace, the C1 separators, and the Unicode space code points. -/
def pySpace (c : Char) : Bool :=
  let n := c.toNat
  n == 32 || (9 ≤ n && n ≤ 13) || (28 ≤ n && n ≤ 31) || n == 0x85 ||
  n == 0xA0 || n == 0x1680 || (0x2000 ≤ n && n ≤ 0x200A) || n == 0x2028 ||
  n == 0x2029 || n == 0x202F || n == 0x205F || n == 0x3000

/-- Models Python's `str.strip()`. -/
def stripWs (s : Str) : Str :=
  ((s.dropWhile pySpace).reverse.dropWhile pySpace).reverse

/-- Split a string at every single newline (models `str.split("\n")`). -/
def splitNl : Str → List Str
  | [] => [[]]
  | '\n' :: t => [] :: splitNl t
  | c :: t =>
    match splitNl t with
    | [] => [[c]]
    | h :: r => (c :: h) :: r

/-- Split at every occurrence of the two-character separator `", "`
(models `str.split(", ")`, left-to-right and non-overlapping). -/
def splitCS : Str → List Str
  | [] => [[]]
  | ',' :: ' ' :: t => [] :: splitCS t
  | c :: t =>
    match splitCS t with
    | [] => [[c]]
    | h :: r => (c :: h) :: r

/-- Join with the separator `", "` (models `", ".join(...)`). -/
def joinCS : List Str → Str
  | [] => []
  | [x] => x
  | x :: y :: r => x ++ str ", " ++ joinCS (y :: r)

/-- Join with a single newline (models `"\n".join(...)`). -/
def joinNl : List Str → Str
  | [] => []
  | [x] => x
  | x :: y :: r => x ++ ['\n'] ++ joinNl (y :: r)

/-- Join with an arbitrary separator (models `sep.join(...)`). -/
def joinWith (sep : Str) : List Str → Str
  | [] => []
  | [x] => x
  | x :: y :: r => x ++ sep ++ joinWith sep (y :: r)

/-- Title-casing of ASCII text (models `str.title()`): a letter is
upper-cased when the previous character is not a letter, lower-cased
otherwise. -/
def titleAux : Bool → Str → Str
  | _, [] => []
  | prev, c :: t =>
    (if c.isAlpha then (if prev then c.toLower else c.toUpper) else c) ::
      titleAux c.isAlpha t

/-- Models `str.title()` on ASCII text. -/
def titleCase (s : Str) : Str := titleAux false s

/-- Keep the first occurrence of each element (a fixed deterministic
linearization of Python's `list(set(xs))`; within one process two identical
calls of the source produce the same ordering, which is all the theorems
below rely on). -/
def dedupF {α : Type} [DecidableEq α] : List α → List α
  | [] => []
  | x :: xs => x :: (dedupF xs).filter (fun y => !(y == x))

/-! ### A small regular-expression engine

The intent patterns of `MasterAgent.__init__` use only literals,
alternation, grouping, `\s*` and the character class `[1-4]`; the engine
below covers exactly those constructs.  `Rx.found` models `re.search`
as a Boolean (does the pattern match at some position). -/

/-- Regular-expression abstract syntax for the intent patterns. -/
inductive Rx where
  | lit : Str → Rx
  | alt : Rx → Rx → Rx
  | cat : Rx → Rx → Rx
  | wsStar : Rx
  | cls : List Char → Rx

/-- All remainders obtainable by consuming zero or more `\s` characters. -/
def wsSplits : Str → List Str
  | [] => [[]]
  | c :: t => if pySpace c then (c :: t) :: wsSplits t else [c :: t]

/-- All remainders after matching the pattern at the start of the string. -/
def Rx.run : Rx → Str → List Str
  | .lit p, s => if leadsWith p s then [s.drop p.length] else []
  | .alt a b, s => a.run s ++ b.run s
  | .cat a b, s => (a.run s).flatMap b.run
  | .wsStar, s => wsSplits s
  | .cls _, [] => []
  | .cls cs, c :: t => if cs.contains c then [t] else []

/-- The pattern matches at the start of the string. -/
def Rx.foundAt (r : Rx) (s : Str) : Bool := !(r.run s).isEmpty

/-- The pattern matches at some position (models `re.search` as a test). -/
def Rx.found (r : Rx) : Str → Bool
  | [] => r.foundAt []
  | c :: t => r.foundAt (c :: t) || r.found t

/-- Literal pattern from a Lean string literal. -/
def rl (s : String) : Rx := .lit s.data

/-- Left-to-right alternation of a head pattern and further choices. -/
def rAlts : Rx → List Rx → Rx
  | r, [] => r
  | r, x :: xs => .alt r (rAlts x xs)

/-- `a\s*b`. -/
def rws (a b : Rx) : Rx := .cat a (.cat .wsStar b)

/-- The intent patterns of `MasterAgent.__init__` (`self.intent_patterns`),
in dictionary insertion order. -/
def intentPatterns : List (Str × List Rx) :=
  [ (str "market_analysis",
      [ rws (rl "market") (rAlts (rl "size") [rl "share", rl "analysis", rl "trend"]),
        rws (rl "sales") (rAlts (rl "data") [rl "trend", rl "volume"]),
        rl "iqvia",
        rws (rl "commercial") (rAlts (rl "opportunity") [rl "potential"]) ]),
    (str "trade_analysis",
      [ rAlts (rl "export") [rl "import", rl "exim", rl "trade"],
        rAlts (rl "sourcing") [rws (rl "supply") (rl "chain")],
        rws (rl "api") (rAlts (rl "source") [rl "supply"]) ]),
    (str "patent_analysis",
      [ Rx.alt (rl "patent") (rws (rl "ip") (rAlts (rl "analysis") [rl "landscape"])),
        Rx.alt (rl "fto") (rws (rl "freedom") (rws (rl "to") (rl "operate"))),
        Rx.alt (Rx.cat (rl "expir") (rAlts (rl "y") [rl "ation"]))
          (rws (rl "generic") (rl "entry")) ]),
    (str "clinical_trials",
      [ rAlts (rws (rl "clinical") (rl "trial"))
          [rl "study", rws (rl "phase") (Rx.cls ['1', '2', '3', '4'])],
        rAlts (rl "pipeline") [rws (rl "development") (rl "stage")],
        rAlts (rl "enrollment") [rl "endpoint"] ]),
    (str "internal_knowledge",
      [ Rx.alt (rl "internal") (rws (rl "strategy") (rAlts (rl "document") [rl "deck"])),
        Rx.alt (rws (rl "field") (rl "insight")) (rws (rl "kol") (rl "feedback")),
        rws (rl "competitive") (rl "intelligence") ]),
    (str "web_intelligence",
      [ rAlts (rl "guideline") [rl "publication", rl "news"],
        rAlts (rl "regulatory") [rl "fda", rl "ema"],
        rAlts (rl "latest") [rws (rl "recent") (rl "update")] ]),
    (str "report_generation",
      [ Rx.alt (rws (rl "generate") (rl "report")) (rws (rl "create") (rl "pdf")),
        rAlts (rl "export") [rl "download", rws (rl "summary") (rl "report")] ]) ]

/-! ### Entity vocabularies (src/data/synthetic_data.py) -/

/-- `DRUG_NAMES` from `src/data/synthetic_data.py`. -/
def DRUG_NAMES : List Str :=
  [ str "Remdesivir", str "Metformin", str "Aspirin", str "Lisinopril",
    str "Atorvastatin", str "Omeprazole", str "Amlodipine", str "Gabapentin",
    str "Sertraline", str "Losartan", str "Sildenafil", str "Tadalafil",
    str "Duloxetine", str "Pregabalin", str "Celecoxib", str "Rituximab",
    str "Pembrolizumab", str "Nivolumab", str "Adalimumab", str "Infliximab" ]

/-- `THERAPY_AREAS` from `src/data/synthetic_data.py`. -/
def THERAPY_AREAS : List Str :=
  [ str "Oncology", str "Cardiology", str "Neurology", str "Immunology",
    str "Infectious Diseases", str "Metabolic Disorders", str "Respiratory",
    str "Dermatology", str "Ophthalmology", str "Rare Diseases" ]

/-! ### Whole-word, case-insensitive entity matching

`MasterAgent.__init__` compiles `\b{name}\b` with `re.IGNORECASE` for each
vocabulary entry and `_extract_drug_name` / `_extract_therapy_area` return
`match.group()` of the first pattern that fires, i.e. the matched slice of
the original query. -/

/-- Word characters, Python's `\w` on ASCII input. -/
def wordC (c : Char) : Bool := c.isAlphanum || c == '_'

/-- Word-character test lifted to an optional character; a string edge
counts as a non-word position. -/
def optWord : Option Char → Bool
  | none => false
  | some c => wordC c

/-- There is a `\b` word boundary between two adjacent positions. -/
def wordB (a b : Option Char) : Bool := optWord a != optWord b

/-- Try to match `\b name \b` (case-insensitively) at the start of `s`,
where `prev` is the character just before `s` in the full query.  On
success, return the matched slice of `s`. -/
def tryAt (name : Str) (prev : Option Char) (s : Str) : Option Str :=
  let n := name.length
  let pre := s.take n
  if (lowerL pre == lowerL name) && wordB prev s.head? &&
      wordB pre.getLast? ((s.drop n).head?)
  then some pre else none

/-- Scan the query left to right for the first whole-word occurrence of
`name` (models `pattern.search(query)` followed by `match.group()`). -/
def scanW (name : Str) (prev : Option Char) : Str → Option Str
  | [] => tryAt name prev []
  | c :: t =>
    match tryAt name prev (c :: t) with
    | some r => some r
    | none => scanW name (some c) t

/-- Return the first vocabulary entry that occurs in the query as a whole
word, as the matched slice of the query (models the loops of
`_extract_drug_name` and `_extract_therapy_area`). -/
def searchVocab (vocab : List Str) (q : Str) : Option Str :=
  vocab.findSome? (fun d => scanW d none q)

/-- `MasterAgent._extract_drug_name`. -/
def extractDrugName (q : Str) : Option Str := searchVocab DRUG_NAMES q

/-- `MasterAgent._extract_therapy_area`. -/
def extractTherapyArea (q : Str) : Option Str := searchVocab THERAPY_AREAS q

/-- `prev` when `a` is empty, otherwise the last character of `a`
(the character preceding a given position of the query). -/
def lastOf (prev : Option Char) (a : Str) : Option Char :=
  match a with
  | [] => prev
  | _ :: _ => a.getLast?

/-- Specification-side statement of C7 (named after the spec's words, to
be compared with the source-derived scanner): `name` occurs in `q` as a
whole word, case-insensitively — some slice of `q` lower-cases to
`name`'s lower case and sits between `\b` word boundaries. -/
def OccursWW (name q : Str) : Prop :=
  ∃ a m b, q = a ++ m ++ b ∧ lowerL m = lowerL name
    ∧ wordB a.getLast? m.head? = true ∧ wordB m.getLast? b.head? = true

/-- Generalization of `OccursWW` threading the character preceding `s`. -/
def OccursFrom (name : Str) (prev : Option Char) (s : Str) : Prop :=
  ∃ a m b, s = a ++ m ++ b ∧ lowerL m = lowerL name
    ∧ wordB (lastOf prev a) m.head? = true ∧ wordB m.getLast? b.head? = true

/-! ### Data model (src/schemas/models.py) -/

/-- `AgentType` enum. -/
inductive AgentType where
  | master
  | iqvia
  | exim
  | patent
  | clinicalTrials
  | internalKnowledge
  | webIntelligence
  | reportGenerator
deriving DecidableEq, Repr

/-- The string value of each `AgentType` enum member. -/
def AgentType.value : AgentType → Str
  | .master => str "master"
  | .iqvia => str "iqvia_insights"
  | .exim => str "exim_trends"
  | .patent => str "patent_landscape"
  | .clinicalTrials => str "clinical_trials"
  | .internalKnowledge => str "internal_knowledge"
  | .webIntelligence => str "web_intelligence"
  | .reportGenerator => str "report_generator"

/-- `TaskStatus` enum. -/
inductive TaskStatus where
  | pending
  | inProgress
  | completed
  | failed
deriving DecidableEq, Repr

/-- `OutputFormat` enum. -/
inductive OutputFormat where
  | text
  | table
  | chart
  | pdf
  | excel
  | json
deriving DecidableEq, Repr

/-- A data table block as built by `BaseAgent._format_table`. -/
structure TableB where
  title : Str := []
  headers : List Str := []
  rows : List (List Str) := []
deriving DecidableEq, Repr

/-- A chart descriptor as built by `BaseAgent._format_chart`; the series
payload is not consulted by the orchestration core and is left out. -/
structure ChartB where
  chart_type : Str := []
  title : Str := []
  x_label : Str := []
  y_label : Str := []
deriving DecidableEq, Repr

/-- `AgentResponse` (pydantic model).  Of the free-form `data` dict only
the `report_path` key is consulted by the orchestrator
(`_generate_report_node`), so it is modelled as an explicit field;
`execution_time_ms` is wall-clock and not modelled. -/
structure AgentResponse where
  agent_type : AgentType
  task_id : Str
  status : TaskStatus
  report_path : Option Str := none
  summary : Str := []
  tables : List TableB := []
  charts : List ChartB := []
  references : List Str := []
  error : Option Str := none
deriving DecidableEq, Repr

/-- The parameter bag attached to tasks: the dict built in `analyze_query`
with keys `drug_name`, `therapy_area`, `query`; the planner's report task
adds `title`, and the graph's report node builds a bag carrying the
serialized worker results and an output format. -/
structure Params where
  drug_name : Option Str := none
  therapy_area : Option Str := none
  query : Str := []
  title : Option Str := none
  agent_responses : List AgentResponse := []
  output_format : Option OutputFormat := none
deriving DecidableEq, Repr

/-- `AgentTask` (pydantic model).  The wall-clock `created_at` and the
unused `completed_at`/`result` fields are not modelled. -/
structure AgentTask where
  task_id : Str
  agent_type : AgentType
  query : Str
  parameters : Params
  priority : Nat
  status : TaskStatus
deriving DecidableEq, Repr

/-! ### MasterAgent.analyze_query and helpers -/

/-- The result dict of `MasterAgent.analyze_query`. -/
structure Analysis where
  original_query : Str
  drug_name : Option Str
  therapy_area : Option Str
  intents : List Str
  required_agents : List AgentType
  needs_report : Bool
  parameters : Params
deriving Repr

/-- The fallback intent set used when no pattern matches. -/
def defaultIntents : List Str :=
  [str "market_analysis", str "clinical_trials", str "patent_analysis"]

/-- The intents whose pattern lists fire on the lower-cased query, in
dictionary insertion order (the inner `for pattern ... break` of
`analyze_query` is an existence test over the pattern list). -/
def matchedIntents (qLower : Str) : List Str :=
  intentPatterns.filterMap
    (fun ip => if ip.2.any (fun p => p.found qLower) then some ip.1 else none)

/-- The `intent_to_agent` dict of `analyze_query`. -/
def intentAgentTable : List (Str × AgentType) :=
  [ (str "market_analysis", AgentType.iqvia),
    (str "trade_analysis", AgentType.exim),
    (str "patent_analysis", AgentType.patent),
    (str "clinical_trials", AgentType.clinicalTrials),
    (str "internal_knowledge", AgentType.internalKnowledge),
    (str "web_intelligence", AgentType.webIntelligence),
    (str "report_generation", AgentType.reportGenerator) ]

/-- Lookup in `intent_to_agent`. -/
def intentToAgent (i : Str) : Option AgentType :=
  (intentAgentTable.find? (fun p => p.1 == i)).map (fun p => p.2)

/-- The keyword list of the `needs_report` test in `analyze_query`. -/
def reportWords : List Str :=
  [str "report", str "pdf", str "document", str "summary"]

/-- `MasterAgent.analyze_query`.  `required_agents` passes the mapped
agents through `list(set(...))`; the model uses the fixed first-occurrence
linearization `dedupF` (no theorem depends on that ordering). -/
def analyzeQuery (q : Str) : Analysis :=
  let qLower := lowerL q
  let drug := extractDrugName q
  let therapy := extractTherapyArea q
  let ints0 := matchedIntents qLower
  let ints := if ints0.isEmpty then defaultIntents else ints0
  { original_query := q
    drug_name := drug
    therapy_area := therapy
    intents := ints
    required_agents := dedupF (ints.filterMap intentToAgent)
    needs_report := ints.contains (str "report_generation") ||
      reportWords.any (fun w => hasSub w qLower)
    parameters := { drug_name := drug, therapy_area := therapy, query := q } }

/-! ### MasterAgent.create_task_plan and helpers -/

/-- `MasterAgent._get_task_priority` (1 = highest; `priorities.get(..., 3)`
supplies 3 for agents without an entry, i.e. for `master`). -/
def getTaskPriority : AgentType → Nat
  | .iqvia => 1
  | .clinicalTrials => 1
  | .patent => 2
  | .exim => 2
  | .webIntelligence => 3
  | .internalKnowledge => 3
  | .reportGenerator => 5
  | .master => 3

/-- Python truthiness-guarded interpolation `f' for {x}' if x else ''`:
the segment is added only when the optional string is present and
non-empty. -/
def optPart (pre : Str) : Option Str → Str
  | none => []
  | some d => if d.isEmpty then [] else pre ++ d

/-- Python `a or b` on an optional string versus a fallback:
`None` and `""` both fall through. -/
def pyOr (a : Option Str) (d : Str) : Str :=
  match a with
  | none => d
  | some x => if x.isEmpty then d else x

/-- `MasterAgent._create_agent_query` (the `query_templates` dict;
`query_templates.get(agent_type, original_query)` returns the original
query for `master`, the only type without an entry). -/
def createAgentQuery (a : AgentType) (orig : Str) (p : Params) : Str :=
  match a with
  | .iqvia => str "Analyze market data and sales trends" ++
      optPart (str " for ") p.drug_name ++ optPart (str " in ") p.therapy_area ++
      str ". " ++ orig
  | .exim => str "Analyze export-import trade data" ++
      optPart (str " for ") p.drug_name ++ optPart (str " in ") p.therapy_area ++
      str ". " ++ orig
  | .patent => str "Analyze patent landscape and IP status" ++
      optPart (str " for ") p.drug_name ++ optPart (str " in ") p.therapy_area ++
      str ". " ++ orig
  | .clinicalTrials => str "Search clinical trials database" ++
      optPart (str " for ") p.drug_name ++ optPart (str " in ") p.therapy_area ++
      str ". " ++ orig
  | .internalKnowledge => str "Search internal knowledge base" ++
      optPart (str " related to ") p.drug_name ++ optPart (str " in ") p.therapy_area ++
      str ". " ++ orig
  | .webIntelligence => str "Search web for latest information" ++
      optPart (str " on ") p.drug_name ++ optPart (str " in ") p.therapy_area ++
      str ". " ++ orig
  | .reportGenerator =>
      str "Generate comprehensive research report based on all gathered data."
  | .master => orig

/-- The worker tasks created by the `for agent_type in required_agents`
loop of `create_task_plan`.  `uuid.uuid4()` task ids are nondeterministic
in the source and are supplied here by the id supply `fid` (the `i`-th
created task receives `fid i`). -/
def mkWorkerTasks (fid : Nat → Str) (i : Nat) (orig : Str) (p : Params) :
    List AgentType → List AgentTask
  | [] => []
  | a :: as =>
    { task_id := fid i
      agent_type := a
      query := createAgentQuery a orig p
      parameters := p
      priority := getTaskPriority a
      status := TaskStatus.pending } :: mkWorkerTasks fid (i + 1) orig p as

/-- The report title built in `create_task_plan`:
`analysis['drug_name'] or analysis['therapy_area'] or 'Drug Repurposing Analysis'`. -/
def reportTitle (drug therapy : Option Str) : Str :=
  str "Research Report: " ++ pyOr drug (pyOr therapy (str "Drug Repurposing Analysis"))

/-- The task list of `create_task_plan` before the final priority sort:
one task per required agent, plus (when `needs_report`) the report task
with priority 5. -/
def createTaskPlanU (fid : Nat → Str) (a : Analysis) : List AgentTask :=
  let ts := mkWorkerTasks fid 0 a.original_query a.parameters a.required_agents
  if a.needs_report then
    ts ++ [{ task_id := fid a.required_agents.length
             agent_type := AgentType.reportGenerator
             query := str "Generate comprehensive research report"
             parameters := { a.parameters with
               title := some (reportTitle a.drug_name a.therapy_area) }
             priority := 5
             status := TaskStatus.pending }]
  else ts

/-- Stable insertion preserving the relative order of equal priorities:
the inserted task goes before the first task of priority `≥` its own.
Together with `sortTasks` this is extensionally Python's stable
`list.sort(key=lambda t: t.priority)`. -/
def insertT (t : AgentTask) : List AgentTask → List AgentTask
  | [] => [t]
  | u :: us => if u.priority < t.priority then u :: insertT t us else t :: u :: us

/-- Stable sort by ascending priority (models `tasks.sort(key=...)`). -/
def sortTasks : List AgentTask → List AgentTask
  | [] => []
  | t :: ts => insertT t (sortTasks ts)

/-- `MasterAgent.create_task_plan`. -/
def createTaskPlan (fid : Nat → Str) (a : Analysis) : List AgentTask :=
  sortTasks (createTaskPlanU fid a)

/-! ### MasterAgent.synthesize_responses and helpers -/

/-- One narrative section of the synthesized response. -/
structure SectionB where
  title : Str
  content : Str
deriving DecidableEq, Repr

/-- The JSON-mode final response dict of `synthesize_responses`;
`generated_at` holds the `datetime.now().isoformat()` value. -/
structure JsonResp where
  query : Str
  executive_summary : Str
  sections : List SectionB
  tables : List TableB
  charts : List ChartB
  references : List Str
  generated_at : Str
deriving DecidableEq, Repr

/-- The `response` entry of the synthesis dict: a rendered text document
or the structured JSON dict. -/
inductive Payload where
  | text : Str → Payload
  | json : JsonResp → Payload
deriving DecidableEq, Repr

/-- The dict returned by `synthesize_responses`. -/
structure SynthRes where
  response : Payload
  sections : List SectionB
  tables : List TableB
  charts : List ChartB
  references : List Str
deriving DecidableEq, Repr

/-- The optional text-generation collaborator (`self.llm`): a fallible
map from prompt to generated text (`None` models a missing API key,
`Except.error` models a raised/rate-limited invocation). -/
def LLM : Type := Str → Except Str Str

/-- Section titles: `agent_type.value.replace("_", " ").title()`. -/
def sectionTitle (a : AgentType) : Str :=
  titleCase (a.value.map (fun c => if c == '_' then ' ' else c))

/-- The deterministic linearization used for `list(set(...))` /
iteration over `set(...)` on the reference lists. -/
def pySetList (l : List Str) : List Str := dedupF l

/-- The prompt built in `_create_executive_summary` for the LLM path. -/
def buildPrompt (q : Str) (summaries : List (AgentType × Str)) : Str :=
  str "Based on the following analysis from multiple specialized agents, \ncreate a concise executive summary (3-5 bullet points) answering the query: \"" ++
  q ++ str "\"\n\nAgent Analyses:\n" ++
  joinNl (summaries.map (fun s => str "**" ++ s.1.value ++ str "**: " ++ s.2.take 500)) ++
  str "\n\nProvide key insights and actionable recommendations."

/-- The deterministic fallback branch of `_create_executive_summary`:
first non-empty, non-heading stripped line of each summary, bulleted,
capped at five entries. -/
def fallbackSummary (summaries : List (AgentType × Str)) : Str :=
  let pts := summaries.filterMap (fun s =>
    let lines := ((splitNl s.2).map stripWs).filter
      (fun l => !l.isEmpty && !leadsWith (str "#") l)
    match lines with
    | [] => none
    | l0 :: _ => some (str "• **" ++ sectionTitle s.1 ++ str ":** " ++ l0))
  if pts.isEmpty then
    str "Analysis complete. Specialized agents have gathered domain-specific data for your request. Please see the detailed sections below."
  else
    str "Key Insights from Multi-Agent Analysis:\n\n" ++ joinNl (pts.take 5)

/-- `MasterAgent._create_executive_summary`: try the LLM, fall back to the
deterministic summary when it is absent or raises. -/
def createExecutiveSummary (llm : Option LLM) (q : Str)
    (summaries : List (AgentType × Str)) : Str :=
  match llm with
  | none => fallbackSummary summaries
  | some f =>
    match f (buildPrompt q summaries) with
    | Except.ok r => r
    | Except.error _ => fallbackSummary summaries

/-- The text-mode document rendered by `synthesize_responses`
(the `response_parts` list joined with newlines). -/
def renderText (q exec : Str) (sections : List SectionB) (refs : List Str) : Str :=
  joinNl
    ([ str "# Research Analysis\n\n**Query:** " ++ q ++ str "\n",
       str "## Executive Summary\n\n" ++ exec ++ str "\n",
       str "---\n" ] ++
     sections.map (fun s => str "## " ++ s.title ++ str "\n\n" ++ s.content ++ str "\n\n") ++
     (if !refs.isEmpty then
        str "## References\n\n" :: (pySetList refs).map (fun r => str "- " ++ r ++ str "\n")
      else []))

/-- `MasterAgent.synthesize_responses`.  `now` is the
`datetime.now().isoformat()` value read in the JSON branch. -/
def synthesizeResponses (llm : Option LLM) (q : Str) (responses : List AgentResponse)
    (fmt : OutputFormat) (now : Str) : SynthRes :=
  let comp := responses.filter (fun r => r.status == TaskStatus.completed)
  let summaries := comp.map (fun r => (r.agent_type, r.summary))
  let tables := (comp.map (fun r => r.tables)).flatten
  let charts := (comp.map (fun r => r.charts)).flatten
  let refs := (comp.map (fun r => r.references)).flatten
  let sections := summaries.map (fun s => { title := sectionTitle s.1, content := s.2 : SectionB })
  let exec := createExecutiveSummary llm q summaries
  let payload :=
    match fmt with
    | OutputFormat.json => Payload.json
        { query := q, executive_summary := exec, sections := sections,
          tables := tables, charts := charts, references := pySetList refs,
          generated_at := now }
    | _ => Payload.text (renderText q exec sections refs)
  { response := payload, sections := sections, tables := tables,
    charts := charts, references := pySetList refs }

/-- Rendering of one table in `format_response`. -/
def renderTable (t : TableB) : Str :=
  str "\n### " ++ t.title ++ str "\n" ++
  (if !t.headers.isEmpty && !t.rows.isEmpty then
    str "| " ++ joinWith (str " | ") t.headers ++ str " |\n" ++
    str "| " ++ joinWith (str " | ") (t.headers.map (fun _ => str "---")) ++ str " |\n" ++
    ((t.rows.take 10).map (fun row => str "| " ++ joinWith (str " | ") row ++ str " |\n")).flatten
  else [])

/-- Stands for `json.dumps(final_response, indent=2)`: a fixed
deterministic rendering of the structured payload (the exact serialized
text is irrelevant to every claim; only its dependence on the data
matters, so a simple unambiguous field-by-field rendering is used). -/
def dumpJson (j : JsonResp) : Str :=
  str "query: " ++ j.query ++ str "\nexecutive_summary: " ++ j.executive_summary ++
  str "\nsections: " ++
  joinWith (str "; ") (j.sections.map (fun s => s.title ++ str " => " ++ s.content)) ++
  str "\ntables: " ++ joinWith (str "; ") (j.tables.map (fun t => t.title)) ++
  str "\ncharts: " ++ joinWith (str "; ") (j.charts.map (fun c => c.title)) ++
  str "\nreferences: " ++ joinWith (str "; ") j.references ++
  str "\ngenerated_at: " ++ j.generated_at

/-- `MasterAgent.format_response`: a dict payload is serialized and
returned as is; a text payload gets the bounded table rendering appended
when requested. -/
def formatResponse (syn : SynthRes) (inclTables : Bool) : Str :=
  match syn.response with
  | Payload.json j => dumpJson j
  | Payload.text s =>
    if inclTables && !syn.tables.isEmpty then
      s ++ str "\n\n## Data Tables\n" ++ ((syn.tables.take 5).map renderTable).flatten
    else s

/-! ### The LangGraph workflow (src/orchestration/graph.py, state.py) -/

/-- `AgentState` (TypedDict): the mutable run state threaded through the
pipeline nodes.  The log-only `messages` field and the unused iteration
counters are not modelled.  `agent_responses` carries the
`operator.add` reducer: node updates are concatenated onto it. -/
structure AgentState where
  user_query : Str
  query_intent : Option Str := none
  drug_name : Option Str := none
  therapy_area : Option Str := none
  parameters : Params := {}
  tasks : List AgentTask := []
  current_task_index : Nat := 0
  agent_responses : List AgentResponse := []
  output_format : OutputFormat := OutputFormat.text
  include_charts : Bool := true
  include_tables : Bool := true
  generate_report : Bool := false
  final_response : Option Str := none
  report_path : Option Str := none
  status : Str := str "initialized"
  error : Option Str := none
deriving Repr

/-- `create_initial_state`. -/
def initialState (q : Str) (fmt : OutputFormat) (ic it gr : Bool) : AgentState :=
  { user_query := q, output_format := fmt, include_charts := ic,
    include_tables := it, generate_report := gr }

/-- A worker implementation: `BaseAgent.execute`, which may raise
(`Except.error`), as guarded by the dispatcher's per-task `try`. -/
def Worker : Type := AgentTask → Except Str AgentResponse

/-- The worker registry `self.worker_agents` (`dict.get` semantics). -/
def Workers : Type := AgentType → Option Worker

/-- `_analyze_query_node`: run the extractor, record the intents as a
comma-joined string, and merge the report-need flag with the externally
supplied one (logical OR). -/
def analyzeNode (s : AgentState) : AgentState :=
  let a := analyzeQuery s.user_query
  { s with
    query_intent := some (joinCS a.intents)
    drug_name := a.drug_name
    therapy_area := a.therapy_area
    parameters := a.parameters
    generate_report := a.needs_report || s.generate_report
    status := str "analyzed" }

/-- The `intent_mapping` dict of `_determine_required_agents`
(note: no entry for `report_generation`). -/
def graphIntentTable : List (Str × AgentType) :=
  [ (str "market_analysis", AgentType.iqvia),
    (str "trade_analysis", AgentType.exim),
    (str "patent_analysis", AgentType.patent),
    (str "clinical_trials", AgentType.clinicalTrials),
    (str "internal_knowledge", AgentType.internalKnowledge),
    (str "web_intelligence", AgentType.webIntelligence) ]

/-- `_determine_required_agents`: split the recorded intent string,
map each stripped intent through the table, and fall back to the default
three workers when nothing mapped. -/
def determineRequiredAgents (queryIntent : Str) : List AgentType :=
  let intents := splitCS queryIntent
  let agents := intents.filterMap
    (fun i => (graphIntentTable.find? (fun p => p.1 == stripWs i)).map (fun p => p.2))
  if agents.isEmpty then
    [AgentType.iqvia, AgentType.clinicalTrials, AgentType.patent]
  else agents

/-- `_plan_tasks_node`: rebuild the analysis dict from the state and run
the planner. -/
def planNode (fid : Nat → Str) (s : AgentState) : AgentState :=
  let qi := s.query_intent.getD []
  let analysis : Analysis :=
    { original_query := s.user_query
      drug_name := s.drug_name
      therapy_area := s.therapy_area
      intents := splitCS qi
      required_agents := determineRequiredAgents qi
      needs_report := s.generate_report
      parameters := s.parameters }
  { s with
    tasks := createTaskPlan fid analysis
    current_task_index := 0
    status := str "planned" }

/-- The failed result recorded by the dispatcher's `except` branch. -/
def failedResponse (t : AgentTask) (e : Str) : AgentResponse :=
  { agent_type := t.agent_type, task_id := t.task_id,
    status := TaskStatus.failed, error := some e }

/-- The dispatch loop of `_execute_tasks_node`: skip report tasks, skip
tasks whose worker is absent, catch a raising worker into a failed
result, and never abort the remaining tasks. -/
def execTasks (W : Workers) : List AgentTask → List AgentResponse
  | [] => []
  | t :: ts =>
    if t.agent_type == AgentType.reportGenerator then execTasks W ts
    else
      match W t.agent_type with
      | none => execTasks W ts
      | some w =>
        (match w t with
         | Except.ok r => r
         | Except.error e => failedResponse t e) :: execTasks W ts

/-- `_execute_tasks_node`. -/
def executeNode (W : Workers) (s : AgentState) : AgentState :=
  { s with
    agent_responses := s.agent_responses ++ execTasks W s.tasks
    status := str "executed" }

/-- `_synthesize_node`. -/
def synthesizeNode (llm : Option LLM) (now : Str) (s : AgentState) : AgentState :=
  let syn := synthesizeResponses llm s.user_query s.agent_responses s.output_format now
  { s with
    final_response := some (formatResponse syn s.include_tables)
    status := str "synthesized" }

/-- `_should_generate_report`: the conditional edge after synthesis. -/
def shouldGenerateReport (s : AgentState) : Str :=
  if s.generate_report then str "generate_report" else str "format_output"

/-- `_generate_report_node`.  `self.worker_agents[...]` indexing and the
worker invocation may raise, which propagates to `run`'s handler, hence
the `Except` result.  `rid` supplies the `uuid` task id. -/
def reportNodeE (W : Workers) (rid : Str) (s : AgentState) : Except Str AgentState :=
  let task : AgentTask :=
    { task_id := rid
      agent_type := AgentType.reportGenerator
      query := str "Generate comprehensive research report"
      parameters :=
        { agent_responses := s.agent_responses
          title := some (reportTitle s.drug_name s.therapy_area)
          output_format := some s.output_format }
      priority := 1
      status := TaskStatus.pending }
  match W AgentType.reportGenerator with
  | none => Except.error (str "KeyError: report_generator")
  | some w =>
    match w task with
    | Except.error e => Except.error e
    | Except.ok r => Except.ok
        { s with
          report_path := r.report_path
          agent_responses := s.agent_responses ++ [r]
          status := str "report_generated" }

/-- `_format_output_node`: append the report-path note when a (truthy)
path is present and mark the run completed. -/
def formatNode (s : AgentState) : AgentState :=
  let base := s.final_response.getD []
  let parts :=
    match s.report_path with
    | none => [base]
    | some p =>
      if p.isEmpty then [base]
      else [base, str "\n\n📄 **Report Generated:** `" ++ p ++ str "`"]
  { s with final_response := some (joinNl parts), status := str "completed" }

/-- One invocation of the compiled graph: the linear pipeline
analyze → plan → execute → synthesize, the conditional report branch,
then final formatting. -/
def invokeGraph (W : Workers) (llm : Option LLM) (fid : Nat → Str) (rid : Str)
    (now : Str) (s0 : AgentState) : Except Str AgentState :=
  let s4 := synthesizeNode llm now (executeNode W (planNode fid (analyzeNode s0)))
  if s4.generate_report then
    match reportNodeE W rid s4 with
    | Except.error e => Except.error e
    | Except.ok s5 => Except.ok (formatNode s5)
  else Except.ok (formatNode s4)

/-- The dict returned by `MultiAgentOrchestrator.run` (success entries
default on the failure branch and vice versa). -/
structure RunResult where
  success : Bool
  query : Str
  response : Str := []
  agent_responses : List AgentResponse := []
  report_path : Option Str := none
  status : Str
  error : Option Str := none
deriving Repr

/-- `MultiAgentOrchestrator.run`: build the initial state, invoke the
graph, and convert any escaped exception into a well-formed failure
result. -/
def run (invoke : AgentState → Except Str AgentState) (q : Str)
    (fmt : OutputFormat) (ic it gr : Bool) : RunResult :=
  match invoke (initialState q fmt ic it gr) with
  | Except.ok fs =>
    { success := true
      query := q
      response := fs.final_response.getD []
      agent_responses := fs.agent_responses
      report_path := fs.report_path
      status := fs.status }
  | Except.error e =>
    { success := false
      query := q
      error := some e
      status := str "failed" }

/-- The blocking entry point instantiated with the real graph. -/
def runPipeline (W : Workers) (llm : Option LLM) (fid : Nat → Str) (rid : Str)
    (now : Str) (q : Str) (fmt : OutputFormat) (ic it gr : Bool) : RunResult :=
  run (invokeGraph W llm fid rid now) q fmt ic it gr

/-! ### Concrete fixtures used by witnesses -/

/-- A worker that always succeeds with a completed result. -/
def wGood : Worker := fun t =>
  Except.ok { agent_type := t.agent_type, task_id := t.task_id,
              status := TaskStatus.completed, summary := str "ok" }

/-- A worker that raises on every invocation. -/
def wBad : Worker := fun _ => Except.error (str "boom")

/-- A registry in which the IQVIA worker succeeds and every other worker
raises. -/
def Wmix : Workers := fun a =>
  match a with
  | AgentType.iqvia => some wGood
  | _ => some wBad

/-- A registry in which every worker raises. -/
def Wfail : Workers := fun _ => some wBad

/-- A concrete successful worker task (for the dispatcher witness). -/
def tGood : AgentTask :=
  { task_id := str "a", agent_type := AgentType.iqvia, query := str "q1",
    parameters := {}, priority := 1, status := TaskStatus.pending }

/-- A concrete failing worker task (for the dispatcher witness). -/
def tBad : AgentTask :=
  { task_id := str "b", agent_type := AgentType.exim, query := str "q2",
    parameters := {}, priority := 2, status := TaskStatus.pending }

/-- A task-id supply producing empty ids (ids are irrelevant everywhere). -/
def fid0 : Nat → Str := fun _ => []

/-- A graph invocation that always raises (for the `run` witness). -/
def failInvoke : AgentState → Except Str AgentState :=
  fun _ => Except.error (str "boom")

/-! ## Theorems -/

/-! ### Stable-sort machinery for the planner -/

theorem insertT_perm (t : AgentTask) (l : List AgentTask) :
    (insertT t l).Perm (t :: l) := by
  induction l with
  | nil => simp [insertT]
  | cons u us ih =>
    rw [insertT]
    by_cases h : u.priority < t.priority
    · simp only [if_pos h]
      exact (ih.cons u).trans (List.Perm.swap t u us)
    · simp [if_neg h]

theorem sortTasks_perm (l : List AgentTask) : (sortTasks l).Perm l := by
  induction l with
  | nil => simp [sortTasks]
  | cons t ts ih => exact (insertT_perm t (sortTasks ts)).trans (ih.cons t)

theorem mem_insertT {x t : AgentTask} {l : List AgentTask} :
    x ∈ insertT t l ↔ x = t ∨ x ∈ l := by
  rw [(insertT_perm t l).mem_iff]
  simp

theorem insertT_pairwise {t : AgentTask} {l : List AgentTask}
    (h : l.Pairwise (fun a b => a.priority ≤ b.priority)) :
    (insertT t l).Pairwise (fun a b => a.priority ≤ b.priority) := by
  induction l with
  | nil => simp [insertT]
  | cons u us ih =>
    rw [List.pairwise_cons] at h
    obtain ⟨hu, hus⟩ := h
    rw [insertT]
    by_cases hc : u.priority < t.priority
    · simp only [if_pos hc]
      rw [List.pairwise_cons]
      refine ⟨?_, ih hus⟩
      intro x hx
      rcases mem_insertT.mp hx with rfl | hx
      · exact Nat.le_of_lt hc
      · exact hu x hx
    · simp only [if_neg hc]
      rw [List.pairwise_cons]
      refine ⟨?_, List.pairwise_cons.mpr ⟨hu, hus⟩⟩
      intro x hx
      rcases List.mem_cons.mp hx with rfl | hx
      · omega
      · have := hu x hx
        omega

theorem sortTasks_sorted (l : List AgentTask) :
    (sortTasks l).Pairwise (fun a b => a.priority ≤ b.priority) := by
  induction l with
  | nil => simp [sortTasks]
  | cons t ts ih => exact insertT_pairwise ih

theorem filter_insertT (t : AgentTask) (l : List AgentTask) (p : Nat) :
    (insertT t l).filter (fun u => u.priority == p) =
      if t.priority = p then t :: l.filter (fun u => u.priority == p)
      else l.filter (fun u => u.priority == p) := by
  induction l with
  | nil =>
    by_cases h : t.priority = p <;> simp [insertT, List.filter_cons, h]
  | cons u us ih =>
    rw [insertT]
    by_cases hc : u.priority < t.priority
    · rw [if_pos hc]
      by_cases ht : t.priority = p
      · have hu : ¬ u.priority = p := by omega
        simp [List.filter_cons, hu, ht, ih]
      · by_cases hu : u.priority = p <;> simp [List.filter_cons, hu, ht, ih]
    · rw [if_neg hc]
      by_cases ht : t.priority = p <;>
        by_cases hu : u.priority = p <;> simp [List.filter_cons, ht, hu]

theorem sortTasks_stable (l : List AgentTask) (p : Nat) :
    (sortTasks l).filter (fun u => u.priority == p) =
      l.filter (fun u => u.priority == p) := by
  induction l with
  | nil => simp [sortTasks]
  | cons t ts ih =>
    rw [sortTasks, filter_insertT]
    by_cases ht : t.priority = p
    · simp [List.filter_cons, ht, ih]
    · simp [List.filter_cons, ht, ih]

theorem insertT_append_last {t rep : AgentTask} (h : t.priority < rep.priority)
    (l : List AgentTask) :
    insertT t (l ++ [rep]) = insertT t l ++ [rep] := by
  induction l with
  | nil =>
    have : ¬ rep.priority < t.priority := by omega
    simp [insertT, this]
  | cons u us ih =>
    by_cases hc : u.priority < t.priority <;>
      simp [insertT, hc, ih]

theorem sortTasks_append_last {rep : AgentTask} (l : List AgentTask)
    (h : ∀ t ∈ l, t.priority < rep.priority) :
    sortTasks (l ++ [rep]) = sortTasks l ++ [rep] := by
  induction l with
  | nil => simp [sortTasks, insertT]
  | cons t ts ih =>
    have ht : t.priority < rep.priority := h t (by simp)
    rw [List.cons_append, sortTasks, ih (fun x hx => h x (by simp [hx])),
      insertT_append_last ht, sortTasks]

/-! ### Planner task facts -/

theorem mem_mkWorkerTasks {fid : Nat → Str} {i : Nat} {orig : Str} {p : Params}
    {ags : List AgentType} {t : AgentTask} (h : t ∈ mkWorkerTasks fid i orig p ags) :
    t.agent_type ∈ ags ∧ t.priority = getTaskPriority t.agent_type := by
  induction ags generalizing i with
  | nil => simp [mkWorkerTasks] at h
  | cons a as ih =>
    rw [mkWorkerTasks] at h
    rcases List.mem_cons.mp h with rfl | h
    · simp
    · obtain ⟨h1, h2⟩ := ih h
      exact ⟨List.mem_cons_of_mem a h1, h2⟩

theorem mem_determineRequiredAgents {qi : Str} {a : AgentType}
    (h : a ∈ determineRequiredAgents qi) :
    a ≠ AgentType.reportGenerator ∧ getTaskPriority a ≤ 3 := by
  have htab : ∀ p ∈ graphIntentTable,
      p.2 ≠ AgentType.reportGenerator ∧ getTaskPriority p.2 ≤ 3 := by decide
  rw [determineRequiredAgents] at h
  split at h
  · have ha : a = AgentType.iqvia ∨ a = AgentType.clinicalTrials ∨ a = AgentType.patent := by
      simpa using h
    rcases ha with rfl | rfl | rfl <;> exact ⟨by decide, by decide⟩
  · obtain ⟨i, _, heq⟩ := List.mem_filterMap.mp h
    obtain ⟨pr, hfind, hpr⟩ := Option.map_eq_some'.mp heq
    have hmem := List.mem_of_find?_eq_some hfind
    subst hpr
    exact htab pr hmem

theorem createTaskPlan_report_split (fid : Nat → Str) (a : Analysis)
    (hrep : a.needs_report = true)
    (hag : ∀ g ∈ a.required_agents, g ≠ AgentType.reportGenerator ∧ getTaskPriority g ≤ 3) :
    ∃ rep : AgentTask,
      createTaskPlan fid a
          = sortTasks (mkWorkerTasks fid 0 a.original_query a.parameters a.required_agents) ++ [rep]
        ∧ rep.agent_type = AgentType.reportGenerator
        ∧ ∀ t ∈ mkWorkerTasks fid 0 a.original_query a.parameters a.required_agents,
            t.priority < rep.priority ∧ (t.agent_type == AgentType.reportGenerator) = false := by
  refine ⟨{ task_id := fid a.required_agents.length
            agent_type := AgentType.reportGenerator
            query := str "Generate comprehensive research report"
            parameters := { a.parameters with
              title := some (reportTitle a.drug_name a.therapy_area) }
            priority := 5
            status := TaskStatus.pending }, ?_, rfl, ?_⟩
  · rw [createTaskPlan, createTaskPlanU, if_pos hrep]
    refine sortTasks_append_last _ ?_
    intro t ht
    obtain ⟨h1, h2⟩ := mem_mkWorkerTasks ht
    have := (hag _ h1).2
    show t.priority < 5
    omega
  · intro t ht
    obtain ⟨h1, h2⟩ := mem_mkWorkerTasks ht
    obtain ⟨h3, h4⟩ := hag _ h1
    constructor
    · show t.priority < 5
      omega
    · simpa using h3

/-- C3: whenever the merged report flag is true, the planned task list
contains exactly one task targeting the report worker and that task is
last regardless of how many other tasks exist; moreover the analyzer node
merges the detected report need with the externally supplied flag by
logical OR. -/
theorem report_task_unique_and_last (fid : Nat → Str) (s : AgentState)
    (h : s.generate_report = true) :
    ((planNode fid s).tasks.countP (fun t => t.agent_type == AgentType.reportGenerator) = 1
      ∧ (planNode fid s).tasks.getLast?.map (fun t => t.agent_type)
          = some AgentType.reportGenerator)
    ∧ ∀ s0 : AgentState, (analyzeNode s0).generate_report
        = ((analyzeQuery s0.user_query).needs_report || s0.generate_report) := by
  refine ⟨?_, fun s0 => rfl⟩
  have hag : ∀ g ∈ determineRequiredAgents (s.query_intent.getD []),
      g ≠ AgentType.reportGenerator ∧ getTaskPriority g ≤ 3 :=
    fun g hg => mem_determineRequiredAgents hg
  obtain ⟨rep, hsplit, hreptype, hsmall⟩ :=
    createTaskPlan_report_split fid
      { original_query := s.user_query
        drug_name := s.drug_name
        therapy_area := s.therapy_area
        intents := splitCS (s.query_intent.getD [])
        required_agents := determineRequiredAgents (s.query_intent.getD [])
        needs_report := s.generate_report
        parameters := s.parameters }
      h hag
  have htasks : (planNode fid s).tasks
      = sortTasks (mkWorkerTasks fid 0 s.user_query s.parameters
          (determineRequiredAgents (s.query_intent.getD []))) ++ [rep] := hsplit
  rw [htasks]
  constructor
  · rw [List.countP_append]
    have h0 : (sortTasks (mkWorkerTasks fid 0 s.user_query s.parameters
        (determineRequiredAgents (s.query_intent.getD [])))).countP
        (fun t => t.agent_type == AgentType.reportGenerator) = 0 := by
      rw [(sortTasks_perm _).countP_eq]
      rw [List.countP_eq_zero]
      intro t ht
      exact (hsmall t ht).2 ▸ (by simp [(hsmall t ht).2])
    rw [h0]
    simp [List.countP_cons, hreptype]
  · rw [List.getLast?_concat]
    simp [hreptype]

/-- C4: the planner's output is sorted by priority ascending with a
stable sort (ties keep the insertion order of the unsorted task list),
and priority precedence beats intent discovery order: for the discovery
order `[patent_analysis, market_analysis]` the IQVIA (market) task,
table priority 1, precedes the patent task, table priority 2. -/
theorem plan_sorted_stable_priority_beats_discovery :
    (∀ (fid : Nat → Str) (a : Analysis),
      (createTaskPlan fid a).Pairwise (fun t u => t.priority ≤ u.priority)
      ∧ (createTaskPlan fid a).Perm (createTaskPlanU fid a)
      ∧ ∀ p : Nat, (createTaskPlan fid a).filter (fun t => t.priority == p)
          = (createTaskPlanU fid a).filter (fun t => t.priority == p))
    ∧ (planNode fid0
        { (initialState (str "patent vs market") OutputFormat.text true true false) with
          query_intent := some (str "patent_analysis, market_analysis")
          status := str "analyzed" }).tasks.map (fun t => t.agent_type)
        = [AgentType.iqvia, AgentType.patent] := by
  refine ⟨fun fid a => ⟨sortTasks_sorted _, sortTasks_perm _, fun p => sortTasks_stable _ p⟩, ?_⟩
  decide

/-- Witness for C3 at a concrete flagged state. -/
theorem report_task_unique_and_last_witness :
    (planNode fid0 (initialState (str "w") OutputFormat.text true true true)).tasks.countP
        (fun t => t.agent_type == AgentType.reportGenerator) = 1
    ∧ (planNode fid0 (initialState (str "w") OutputFormat.text true true true)).tasks.getLast?.map
        (fun t => t.agent_type) = some AgentType.reportGenerator :=
  (report_task_unique_and_last fid0 (initialState (str "w") OutputFormat.text true true true)
    rfl).1

/-! ### Dispatcher and run-level facts -/

theorem execTasks_append (W : Workers) (l1 l2 : List AgentTask) :
    execTasks W (l1 ++ l2) = execTasks W l1 ++ execTasks W l2 := by
  induction l1 with
  | nil => simp [execTasks]
  | cons t ts ih =>
    rw [List.cons_append]
    by_cases hr : (t.agent_type == AgentType.reportGenerator) = true
    · simp [execTasks, hr, ih]
    · cases hW : W t.agent_type with
      | none => simp [execTasks, hr, hW, ih]
      | some w => simp [execTasks, hr, hW, ih]

theorem execTasks_all_completed (W : Workers) (l : List AgentTask)
    (h : ∀ t ∈ l, (t.agent_type == AgentType.reportGenerator) = false
        ∧ ∃ wt r, W t.agent_type = some wt ∧ wt t = Except.ok r
            ∧ r.status = TaskStatus.completed) :
    (execTasks W l).length = l.length
    ∧ ∀ x ∈ execTasks W l, x.status = TaskStatus.completed := by
  induction l with
  | nil => simp [execTasks]
  | cons t ts ih =>
    obtain ⟨hr, wt, r, hW, hwt, hst⟩ := h t (by simp)
    obtain ⟨ihl, ihm⟩ := ih (fun x hx => h x (by simp [hx]))
    rw [execTasks]
    simp only [hr, Bool.false_eq_true, if_false, hW, hwt]
    constructor
    · simp [ihl]
    · intro x hx
      rcases List.mem_cons.mp hx with rfl | hx
      · exact hst
      · exact ihm x hx

/-- When the merged report flag stays off (no report need detected and
`generate_report=False` supplied), the full pipeline always reaches the
`completed` terminal with `success = true`, whatever the workers do. -/
theorem runPipeline_no_report (W : Workers) (llm : Option LLM) (fid : Nat → Str)
    (rid now q : Str) (fmt : OutputFormat) (ic it : Bool)
    (h : (analyzeQuery q).needs_report = false) :
    (runPipeline W llm fid rid now q fmt ic it false).success = true
    ∧ (runPipeline W llm fid rid now q fmt ic it false).status = str "completed" := by
  have hflag : (synthesizeNode llm now (executeNode W (planNode fid (analyzeNode
      (initialState q fmt ic it false))))).generate_report = false := by
    simp [synthesizeNode, executeNode, planNode, analyzeNode, initialState, h]
  rw [runPipeline, run, invokeGraph]
  simp only [hflag, Bool.false_eq_true, if_false]
  simp [formatNode]

/-- C2: worker failure is isolated per task.  For a plan `pre ++ tbad :: post`
of non-report tasks in which the worker of `tbad` raises on every
invocation and every other task's worker succeeds with a completed
result, the dispatcher yields one result per task in order — the failed
one carrying the raised error message, the other `N-1` completed — and a
run with the merged report flag off still terminates `completed`, not
`failed`. -/
theorem dispatcher_failure_isolation
    (W : Workers) (pre post : List AgentTask) (tbad : AgentTask) (e : Str) (w : Worker)
    (hnr : ∀ t ∈ pre ++ tbad :: post, (t.agent_type == AgentType.reportGenerator) = false)
    (hok : ∀ t ∈ pre ++ post, ∃ wt r, W t.agent_type = some wt ∧ wt t = Except.ok r
        ∧ r.status = TaskStatus.completed)
    (hbadW : W tbad.agent_type = some w)
    (hbad : ∀ t, w t = Except.error e) :
    (execTasks W (pre ++ tbad :: post)
        = execTasks W pre ++ failedResponse tbad e :: execTasks W post)
    ∧ (execTasks W (pre ++ tbad :: post)).length = pre.length + post.length + 1
    ∧ (execTasks W (pre ++ tbad :: post)).countP
        (fun x => x.status == TaskStatus.failed) = 1
    ∧ (execTasks W (pre ++ tbad :: post)).countP
        (fun x => x.status == TaskStatus.completed) = pre.length + post.length
    ∧ ∀ (q2 : Str) (fmt : OutputFormat) (ic it : Bool) (llm : Option LLM)
        (fid : Nat → Str) (rid now : Str),
        (analyzeQuery q2).needs_report = false →
          (runPipeline W llm fid rid now q2 fmt ic it false).success = true
          ∧ (runPipeline W llm fid rid now q2 fmt ic it false).status = str "completed" := by
  have hpre := execTasks_all_completed W pre (fun t ht =>
    ⟨hnr t (List.mem_append_left _ ht),
     hok t (List.mem_append_left _ ht)⟩)
  have hpost := execTasks_all_completed W post (fun t ht =>
    ⟨hnr t (List.mem_append_right _ (List.mem_cons_of_mem _ ht)),
     hok t (List.mem_append_right _ ht)⟩)
  have hsplit : execTasks W (pre ++ tbad :: post)
      = execTasks W pre ++ failedResponse tbad e :: execTasks W post := by
    rw [execTasks_append]
    congr 1
    rw [execTasks]
    have hb : (tbad.agent_type == AgentType.reportGenerator) = false :=
      hnr tbad (List.mem_append_right _ (List.mem_cons_self _ _))
    simp [hb, hbadW, hbad]
  refine ⟨hsplit, ?_, ?_, ?_,
    fun q2 fmt ic it llm fid rid now hq2 =>
      runPipeline_no_report W llm fid rid now q2 fmt ic it hq2⟩
  · rw [hsplit]
    simp [hpre.1, hpost.1]
    omega
  · rw [hsplit, List.countP_append, List.countP_cons]
    have h1 : (execTasks W pre).countP (fun x => x.status == TaskStatus.failed) = 0 :=
      List.countP_eq_zero.mpr (fun x hx => by simp [hpre.2 x hx])
    have h2 : (execTasks W post).countP (fun x => x.status == TaskStatus.failed) = 0 :=
      List.countP_eq_zero.mpr (fun x hx => by simp [hpost.2 x hx])
    simp [h1, h2, failedResponse]
  · rw [hsplit, List.countP_append, List.countP_cons]
    have h1 : (execTasks W pre).countP (fun x => x.status == TaskStatus.completed)
        = (execTasks W pre).length :=
      List.countP_eq_length.mpr (fun x hx => by simp [hpre.2 x hx])
    have h2 : (execTasks W post).countP (fun x => x.status == TaskStatus.completed)
        = (execTasks W post).length :=
      List.countP_eq_length.mpr (fun x hx => by simp [hpost.2 x hx])
    rw [h1, h2, hpre.1, hpost.1]
    simp [failedResponse]

/-- Witness for C2: one succeeding IQVIA task beside one always-raising
EXIM task gives exactly one failed and one completed result, and the
run still completes. -/
theorem dispatcher_failure_isolation_witness :
    (execTasks Wmix [tGood, tBad]).countP (fun x => x.status == TaskStatus.failed) = 1
    ∧ (execTasks Wmix [tGood, tBad]).countP
        (fun x => x.status == TaskStatus.completed) = 1
    ∧ (runPipeline Wmix none fid0 [] [] (str "hello") OutputFormat.text true true false).success
        = true
    ∧ (runPipeline Wmix none fid0 [] [] (str "hello") OutputFormat.text true true false).status
        = str "completed" := by
  have h := dispatcher_failure_isolation Wmix [tGood] [] tBad (str "boom") wBad
    (by decide)
    (by
      intro t ht
      have ht' : t = tGood := by simpa using ht
      subst ht'
      exact ⟨wGood, _, rfl, rfl, rfl⟩)
    rfl
    (fun _ => rfl)
  obtain ⟨_, _, hf, hc, hrun⟩ := h
  obtain ⟨hs, hst⟩ := hrun (str "hello") OutputFormat.text true true none fid0 [] []
    (by decide)
  exact ⟨hf, hc, hs, hst⟩

/-- C1 counterexample: with every worker raising, the run for
`"market size"` (one planned IQVIA task, report flag off) dispatches one
task, records one failed result, synthesizes zero narrative sections —
and still returns `success = true` with terminal status `completed`.
The synthesis shown is exactly the one the synthesize node computed for
this run (same query, same responses, same format). -/
theorem success_true_with_zero_sections :
    (runPipeline Wfail none fid0 [] [] (str "market size")
        OutputFormat.text true true false).success = true
    ∧ (runPipeline Wfail none fid0 [] [] (str "market size")
        OutputFormat.text true true false).status = str "completed"
    ∧ (runPipeline Wfail none fid0 [] [] (str "market size")
        OutputFormat.text true true false).agent_responses.length = 1
    ∧ (∀ x ∈ (runPipeline Wfail none fid0 [] [] (str "market size")
        OutputFormat.text true true false).agent_responses, x.status = TaskStatus.failed)
    ∧ (synthesizeResponses none (str "market size")
        (runPipeline Wfail none fid0 [] [] (str "market size")
          OutputFormat.text true true false).agent_responses
        OutputFormat.text []).sections = [] := by decide

/-- C1 amended: the synthesized response contains exactly one narrative
section per completed worker result (in order) — so a successful run has
at least one section iff at least one worker completed; when every
dispatched task fails, the run still returns `success = true` with zero
sections. -/
theorem sections_per_completed_result :
    (∀ (llm : Option LLM) (q : Str) (rs : List AgentResponse) (fmt : OutputFormat)
        (now : Str),
      (synthesizeResponses llm q rs fmt now).sections
        = (rs.filter (fun r => r.status == TaskStatus.completed)).map
            (fun r => { title := sectionTitle r.agent_type, content := r.summary : SectionB }))
    ∧ ∀ (W : Workers) (llm : Option LLM) (fid : Nat → Str) (rid now q : Str)
        (fmt : OutputFormat) (ic it : Bool),
        (analyzeQuery q).needs_report = false →
          (runPipeline W llm fid rid now q fmt ic it false).success = true := by
  constructor
  · intro llm q rs fmt now
    simp only [synthesizeResponses]
    rw [List.map_map]
    rfl
  · intro W llm fid rid now q fmt ic it hq
    exact (runPipeline_no_report W llm fid rid now q fmt ic it hq).1

/-- Witness for C1 (amended), at an all-failing registry and a query
without report keywords. -/
theorem sections_per_completed_result_witness :
    (runPipeline Wfail none fid0 [] [] (str "patent query")
        OutputFormat.text true true false).success = true :=
  sections_per_completed_result.2 Wfail none fid0 [] [] (str "patent query")
    OutputFormat.text true true (by decide)

/-- C6: the blocking `run` never raises; any exception escaping the graph
is converted into a well-formed failure result carrying the error message,
the original query and status `failed`, and a normal termination is
reported with `success = true` and the final state's response, status,
responses and report path. -/
theorem run_never_raises_shape (invoke : AgentState → Except Str AgentState)
    (q : Str) (fmt : OutputFormat) (ic it gr : Bool) :
    (∀ e, invoke (initialState q fmt ic it gr) = Except.error e →
      (run invoke q fmt ic it gr).success = false
      ∧ (run invoke q fmt ic it gr).error = some e
      ∧ (run invoke q fmt ic it gr).query = q
      ∧ (run invoke q fmt ic it gr).status = str "failed")
    ∧ (∀ fs, invoke (initialState q fmt ic it gr) = Except.ok fs →
      (run invoke q fmt ic it gr).success = true
      ∧ (run invoke q fmt ic it gr).response = fs.final_response.getD []
      ∧ (run invoke q fmt ic it gr).query = q
      ∧ (run invoke q fmt ic it gr).status = fs.status
      ∧ (run invoke q fmt ic it gr).agent_responses = fs.agent_responses
      ∧ (run invoke q fmt ic it gr).report_path = fs.report_path) := by
  constructor
  · intro e he
    simp [run, he]
  · intro fs hfs
    simp [run, hfs]

/-- Witness for C6 at an always-raising graph invocation. -/
theorem run_never_raises_shape_witness :
    (run failInvoke (str "q") OutputFormat.text true true false).success = false
    ∧ (run failInvoke (str "q") OutputFormat.text true true false).error = some (str "boom")
    ∧ (run failInvoke (str "q") OutputFormat.text true true false).status = str "failed" := by
  have h := (run_never_raises_shape failInvoke (str "q")
    OutputFormat.text true true false).1 (str "boom") rfl
  exact ⟨h.1, h.2.1, h.2.2.2⟩

/-! ### Intent analysis facts -/

theorem filterMap_if_sublist {α β : Type} (p : α → Bool) (f : α → β) (l : List α) :
    (l.filterMap (fun x => if p x then some (f x) else none)).Sublist (l.map f) := by
  induction l with
  | nil => simp
  | cons x xs ih =>
    rw [List.filterMap_cons, List.map_cons]
    by_cases h : p x
    · simp only [if_pos h]
      exact ih.cons₂ (f x)
    · simp only [if_neg h]
      exact ih.cons (f x)

theorem matchedIntents_nodup (qL : Str) : (matchedIntents qL).Nodup := by
  have hnd : (intentPatterns.map Prod.fst).Nodup := by decide
  exact hnd.sublist
    (filterMap_if_sublist (fun ip : Str × List Rx => ip.2.any (fun p => p.found qL))
      Prod.fst intentPatterns)

/-- C5: for every query the analysis produces a non-empty, deduplicated
intent list, and when no intent pattern fires it is exactly the fixed
default `[market_analysis, clinical_trials, patent_analysis]`. -/
theorem intents_nonempty_dedup_default (q : Str) :
    (analyzeQuery q).intents ≠ []
    ∧ (analyzeQuery q).intents.Nodup
    ∧ (matchedIntents (lowerL q) = [] → (analyzeQuery q).intents = defaultIntents) := by
  have hi : (analyzeQuery q).intents
      = if (matchedIntents (lowerL q)).isEmpty then defaultIntents
        else matchedIntents (lowerL q) := rfl
  by_cases h : (matchedIntents (lowerL q)).isEmpty
  · rw [hi, if_pos h]
    exact ⟨by decide, by decide, fun _ => rfl⟩
  · rw [hi, if_neg h]
    refine ⟨?_, matchedIntents_nodup _, ?_⟩
    · intro hc
      simp [hc] at h
    · intro hc
      simp [hc] at h

/-- Witness for C5 at a query matching no intent pattern. -/
theorem intents_default_witness :
    (analyzeQuery (str "zzz")).intents = defaultIntents :=
  (intents_nonempty_dedup_default (str "zzz")).2.2 (by decide)

/-! ### Synthesis determinism -/

/-- C8 counterexample: in JSON output mode the synthesis embeds the
wall-clock timestamp (`datetime.now().isoformat()`), so two calls on the
same query and result list made at different instants produce different
`SynthesizedResponse` content — the claimed identity fails in that mode. -/
theorem synthesis_json_timestamp_dependent :
    synthesizeResponses none (str "q") [] OutputFormat.json (str "2024-01-01T00:00:00")
      ≠ synthesizeResponses none (str "q") [] OutputFormat.json (str "2024-01-01T00:00:01") := by
  decide

/-- C8 amended: with the text-generation collaborator unavailable the
synthesis is deterministic in its inputs — in text output mode the whole
result is identical across calls (independent of the wall clock), and in
every mode the sections, tables, charts and references are; the executive
summary is the deterministic, total fallback.  Only the JSON-mode
response payload differs across calls, through its embedded timestamp. -/
theorem synthesis_deterministic_amended :
    (∀ (q : Str) (rs : List AgentResponse) (t1 t2 : Str),
      synthesizeResponses none q rs OutputFormat.text t1
        = synthesizeResponses none q rs OutputFormat.text t2)
    ∧ (∀ (q : Str) (rs : List AgentResponse) (fmt : OutputFormat) (t1 t2 : Str),
      (synthesizeResponses none q rs fmt t1).sections
          = (synthesizeResponses none q rs fmt t2).sections
      ∧ (synthesizeResponses none q rs fmt t1).tables
          = (synthesizeResponses none q rs fmt t2).tables
      ∧ (synthesizeResponses none q rs fmt t1).charts
          = (synthesizeResponses none q rs fmt t2).charts
      ∧ (synthesizeResponses none q rs fmt t1).references
          = (synthesizeResponses none q rs fmt t2).references)
    ∧ (∀ (q : Str) (summaries : List (AgentType × Str)),
      createExecutiveSummary none q summaries = fallbackSummary summaries) :=
  ⟨fun _ _ _ _ => rfl, fun _ _ _ _ _ => ⟨rfl, rfl, rfl, rfl⟩, fun _ _ => rfl⟩

/-! ### Report-need detection and routing -/

/-- C9: a query whose lowercased text contains one of the substrings
`report`, `pdf`, `document`, `summary` sets the report-need flag, so the
workflow takes the report branch even with `generateReport = false`
supplied; the flag propagates unchanged through planning, execution and
synthesis.  (Conversely `"summarize the data"` contains none of them and
does not set the flag.) -/
theorem report_keywords_set_flag (q : Str) (fmt : OutputFormat) (ic it : Bool)
    (W : Workers) (llm : Option LLM) (fid : Nat → Str) (now : Str)
    (h : reportWords.any (fun w => hasSub w (lowerL q)) = true) :
    (analyzeQuery q).needs_report = true
    ∧ (analyzeNode (initialState q fmt ic it false)).generate_report = true
    ∧ shouldGenerateReport (synthesizeNode llm now (executeNode W (planNode fid
        (analyzeNode (initialState q fmt ic it false))))) = str "generate_report"
    ∧ (analyzeQuery (str "summarize the data")).needs_report = false := by
  have h1 : (analyzeQuery q).needs_report = true := by
    simp [analyzeQuery, h]
  refine ⟨h1, ?_, ?_, by decide⟩
  · simp [analyzeNode, initialState, h1]
  · simp [shouldGenerateReport, synthesizeNode, executeNode, planNode, analyzeNode,
      initialState, h1]

/-- Witness for C9 at `"see documentation"` (`document` occurs inside a
longer word). -/
theorem report_keywords_set_flag_witness :
    (analyzeQuery (str "see documentation")).needs_report = true
    ∧ (analyzeNode (initialState (str "see documentation")
        OutputFormat.text true true false)).generate_report = true := by
  have h := report_keywords_set_flag (str "see documentation") OutputFormat.text
    true true Wfail none fid0 [] (by decide)
  exact ⟨h.1, h.2.1⟩

/-- C10: when the analysis recognizes only `report_generation`, the
graph's agent-determination step (whose table omits that intent) finds
nothing and falls back to the default three workers, so three analysis
tasks are still planned ahead of the final report task. -/
theorem report_only_intent_default_workers (q : Str) (fmt : OutputFormat)
    (ic it : Bool) (fid : Nat → Str)
    (h : (analyzeQuery q).intents = [str "report_generation"]) :
    determineRequiredAgents
        ((analyzeNode (initialState q fmt ic it false)).query_intent.getD [])
      = [AgentType.iqvia, AgentType.clinicalTrials, AgentType.patent]
    ∧ (planNode fid (analyzeNode (initialState q fmt ic it false))).tasks.map
        (fun t => t.agent_type)
      = [AgentType.iqvia, AgentType.clinicalTrials, AgentType.patent,
         AgentType.reportGenerator] := by
  have hqi : (analyzeNode (initialState q fmt ic it false)).query_intent
      = some (str "report_generation") := by
    simp [analyzeNode, initialState, h, joinCS]
  have hnr : (analyzeQuery q).needs_report = true := by
    have e : (analyzeQuery q).needs_report
        = ((analyzeQuery q).intents.contains (str "report_generation")
            || reportWords.any (fun w => hasSub w (lowerL q))) := rfl
    rw [e, h]
    simp
  have hflag : (analyzeNode (initialState q fmt ic it false)).generate_report = true := by
    simp [analyzeNode, initialState, hnr]
  have hda : determineRequiredAgents (str "report_generation")
      = [AgentType.iqvia, AgentType.clinicalTrials, AgentType.patent] := by decide
  constructor
  · rw [hqi]
    exact hda
  · simp only [planNode, hqi, hflag, Option.getD_some, hda]
    simp [createTaskPlan, createTaskPlanU, mkWorkerTasks, sortTasks, insertT,
      getTaskPriority]

/-- Witness for C10 at the query `"generate report"`. -/
theorem report_only_intent_default_workers_witness :
    (planNode fid0 (analyzeNode (initialState (str "generate report")
        OutputFormat.text true true false))).tasks.map (fun t => t.agent_type)
      = [AgentType.iqvia, AgentType.clinicalTrials, AgentType.patent,
         AgentType.reportGenerator] :=
  (report_only_intent_default_workers (str "generate report") OutputFormat.text
    true true fid0 (by decide)).2

/-! ### Whole-word scanner characterization (C7) -/

theorem lastOf_none (a : Str) : lastOf none a = a.getLast? := by
  cases a <;> simp [lastOf]

theorem lastOf_cons (prev : Option Char) (c : Char) (a : Str) :
    lastOf prev (c :: a) = lastOf (some c) a := by
  cases a with
  | nil => simp [lastOf]
  | cons x xs => simp [lastOf, List.getLast?_cons_cons]

theorem occursWW_iff_from (name q : Str) :
    OccursWW name q ↔ OccursFrom name none q := by
  unfold OccursWW OccursFrom
  simp [lastOf_none]

theorem tryAt_eq_some_iff {name : Str} {prev : Option Char} {s r : Str} :
    tryAt name prev s = some r ↔
      lowerL (s.take name.length) = lowerL name
      ∧ wordB prev s.head? = true
      ∧ wordB (s.take name.length).getLast? ((s.drop name.length).head?) = true
      ∧ r = s.take name.length := by
  simp only [tryAt]
  split_ifs with h
  · simp only [Bool.and_eq_true, beq_iff_eq] at h
    obtain ⟨⟨h1, h2⟩, h3⟩ := h
    simp only [Option.some.injEq]
    constructor
    · intro hr
      exact ⟨h1, h2, h3, hr.symm⟩
    · rintro ⟨_, _, _, rfl⟩
      rfl
  · constructor
    · intro hc
      cases hc
    · rintro ⟨h1, h2, h3, rfl⟩
      refine absurd ?_ h
      simp only [Bool.and_eq_true, beq_iff_eq]
      exact ⟨⟨h1, h2⟩, h3⟩

theorem scanW_some_lower {name : Str} {prev : Option Char} {s r : Str}
    (h : scanW name prev s = some r) : lowerL r = lowerL name := by
  induction s generalizing prev with
  | nil =>
    rw [scanW] at h
    obtain ⟨h1, _, _, rfl⟩ := tryAt_eq_some_iff.mp h
    exact h1
  | cons c t ih =>
    rw [scanW] at h
    cases htry : tryAt name prev (c :: t) with
    | some r2 =>
      rw [htry] at h
      obtain ⟨h1, _, _, hr⟩ := tryAt_eq_some_iff.mp htry
      cases h
      rw [hr]
      exact h1
    | none =>
      rw [htry] at h
      exact ih h

theorem scanW_isSome_iff (name : Str) (hname : name ≠ []) (prev : Option Char)
    (s : Str) : (scanW name prev s).isSome = true ↔ OccursFrom name prev s := by
  induction s generalizing prev with
  | nil =>
    rw [scanW]
    constructor
    · intro h
      obtain ⟨r, hr⟩ := Option.isSome_iff_exists.mp h
      obtain ⟨h1, _, _, _⟩ := tryAt_eq_some_iff.mp hr
      exfalso
      have hlen := congrArg List.length h1
      simp only [lowerL, List.length_map, List.take_nil, List.length_nil] at hlen
      exact hname (List.length_eq_zero.mp hlen.symm)
    · rintro ⟨a, m, b, happ, hm, _, _⟩
      exfalso
      have h0 : a = [] ∧ m = [] ∧ b = [] := by
        have := happ.symm
        simp only [List.append_eq_nil] at this
        exact ⟨this.1.1, this.1.2, this.2⟩
      have hlen := congrArg List.length hm
      rw [h0.2.1] at hlen
      simp only [lowerL, List.length_map, List.length_nil] at hlen
      exact hname (List.length_eq_zero.mp hlen.symm)
  | cons c t ih =>
    rw [scanW]
    cases htry : tryAt name prev (c :: t) with
    | some r =>
      simp only [Option.isSome_some, true_iff]
      obtain ⟨h1, h2, h3, rfl⟩ := tryAt_eq_some_iff.mp htry
      refine ⟨[], (c :: t).take name.length, (c :: t).drop name.length,
        by rw [List.nil_append, List.take_append_drop], h1, ?_, h3⟩
      have hn : name.length ≠ 0 := fun h0 => hname (List.length_eq_zero.mp h0)
      have hhead : ((c :: t).take name.length).head? = some c := by
        cases hcase : name.length with
        | zero => exact absurd hcase hn
        | succ k => simp [List.take_cons]
      rw [lastOf, hhead]
      simpa using h2
    | none =>
      simp only [htry]
      rw [ih]
      constructor
      · rintro ⟨a, m, b, happ, hm, h3, h4⟩
        exact ⟨c :: a, m, b, by simp [happ], hm, by rwa [lastOf_cons], h4⟩
      · rintro ⟨a, m, b, happ, hm, h3, h4⟩
        cases a with
        | nil =>
          exfalso
          have hml : m.length = name.length := by
            have := congrArg List.length hm
            simpa only [lowerL, List.length_map] using this
          have happ' : (c :: t : Str) = m ++ b := by simpa using happ
          have htake : (c :: t).take name.length = m := by
            rw [happ', ← hml, List.take_left]
          have hdrop : (c :: t).drop name.length = b := by
            rw [happ', ← hml, List.drop_left]
          have hmne : m ≠ [] := by
            intro h0
            rw [h0] at hml
            simp only [List.length_nil] at hml
            exact hname (List.length_eq_zero.mp hml.symm)
          have hhead : (c :: t : Str).head? = m.head? := by
            cases m with
            | nil => exact absurd rfl hmne
            | cons x xs =>
              have : c = x := by
                have := happ'
                simp only [List.cons_append, List.cons.injEq] at this
                exact this.1
              simp [this]
          have hcond : tryAt name prev (c :: t) = some m :=
            tryAt_eq_some_iff.mpr ⟨by rw [htake]; exact hm,
              by rw [hhead]; simpa [lastOf] using h3,
              by rw [htake, hdrop]; exact h4, htake.symm⟩
          rw [hcond] at htry
          cases htry
        | cons c' a' =>
          have hc : c' = c ∧ t = a' ++ m ++ b := by
            have := happ
            simp only [List.cons_append, List.cons.injEq, List.append_assoc] at this
            refine ⟨this.1.symm, by simpa [List.append_assoc] using this.2⟩
          refine ⟨a', m, b, hc.2, hm, ?_, h4⟩
          rw [← lastOf_cons prev c a', ← hc.1]
          exact h3

/-! ### findSome? facts -/

theorem findSome?_none_iff {α β : Type} (f : α → Option β) (l : List α) :
    l.findSome? f = none ↔ ∀ x ∈ l, f x = none := by
  induction l with
  | nil => simp [List.findSome?]
  | cons a as ih =>
    rw [List.findSome?]
    cases hfa : f a with
    | some b => simp [hfa]
    | none => simp [hfa, ih]

theorem findSome?_some_split {α β : Type} {f : α → Option β} {l : List α} {r : β}
    (h : l.findSome? f = some r) :
    ∃ l1 x l2, l = l1 ++ x :: l2 ∧ f x = some r ∧ ∀ y ∈ l1, f y = none := by
  induction l with
  | nil => simp [List.findSome?] at h
  | cons a as ih =>
    rw [List.findSome?] at h
    cases hfa : f a with
    | some b =>
      rw [hfa] at h
      have hb : (some b : Option β) = some r := h
      exact ⟨[], a, as, rfl, by rw [hfa]; exact hb, by simp⟩
    | none =>
      rw [hfa] at h
      have h' : as.findSome? f = some r := h
      obtain ⟨l1, x, l2, heq, hfx, hnil⟩ := ih h'
      refine ⟨a :: l1, x, l2, by simp [heq], hfx, ?_⟩
      intro y hy
      rcases List.mem_cons.mp hy with rfl | hy'
      · exact hfa
      · exact hnil y hy'

theorem findSome?_isSome_of_mem {α β : Type} {f : α → Option β} {l : List α} {x : α}
    (hx : x ∈ l) (hfx : (f x).isSome = true) : (l.findSome? f).isSome = true := by
  induction l with
  | nil => cases hx
  | cons a as ih =>
    rw [List.findSome?]
    cases hfa : f a with
    | some b => simp
    | none =>
      rcases List.mem_cons.mp hx with rfl | hx'
      · rw [hfa] at hfx
        simp at hfx
      · exact ih hx'

/-- The two directions of C7 for an arbitrary non-empty-name vocabulary:
no whole-word occurrence means no extraction, and a whole-word occurrence
of any entry means the extractor returns (a case-variant slice of) the
first entry, in vocabulary order, that occurs. -/
theorem searchVocab_spec (vocab : List Str) (hv : ∀ d ∈ vocab, d ≠ []) (q : Str) :
    ((∀ d ∈ vocab, ¬ OccursWW d q) → searchVocab vocab q = none)
    ∧ ∀ d ∈ vocab, OccursWW d q →
        ∃ l1 d0 l2 s, vocab = l1 ++ d0 :: l2 ∧ (∀ e ∈ l1, ¬ OccursWW e q)
          ∧ OccursWW d0 q ∧ searchVocab vocab q = some s ∧ lowerL s = lowerL d0 := by
  constructor
  · intro hnone
    apply (findSome?_none_iff _ _).mpr
    intro d hd
    have hno := hnone d hd
    rw [occursWW_iff_from] at hno
    cases hsw : scanW d none q with
    | none => rfl
    | some r =>
      exact absurd ((scanW_isSome_iff d (hv d hd) none q).mp (by simp [hsw])) hno
  · intro d hd hocc
    have hsome : (searchVocab vocab q).isSome = true :=
      findSome?_isSome_of_mem hd
        ((scanW_isSome_iff d (hv d hd) none q).mpr ((occursWW_iff_from d q).mp hocc))
    obtain ⟨s, hs⟩ := Option.isSome_iff_exists.mp hsome
    obtain ⟨l1, d0, l2, heq, hfd0, hnil⟩ := findSome?_some_split hs
    have hd0v : d0 ∈ vocab := by
      rw [heq]
      exact List.mem_append_right _ (List.mem_cons_self _ _)
    refine ⟨l1, d0, l2, s, heq, ?_, ?_, hs, scanW_some_lower hfd0⟩
    · intro e he
      have hev : e ∈ vocab := heq ▸ List.mem_append_left _ he
      rw [occursWW_iff_from]
      intro hocce
      have hsw := (scanW_isSome_iff e (hv e hev) none q).mpr hocce
      rw [hnil e he] at hsw
      simp at hsw
    · rw [occursWW_iff_from]
      exact (scanW_isSome_iff d0 (hv d0 hd0v) none q).mp (by simp [hfd0])

/-- C7: on ASCII queries, entity extraction returns a known vocabulary
name exactly when one occurs as a whole word (case-insensitively,
whatever the surrounding punctuation): if no drug (resp. therapy-area)
name occurs, the entity is absent; if some name occurs, the extractor
returns a slice of the query whose lower case equals that of the first
vocabulary entry, in vocabulary order, that occurs. -/
theorem entity_extraction_whole_word (q : Str) (_hq : asciiOnly q = true) :
    (((∀ d ∈ DRUG_NAMES, ¬ OccursWW d q) → extractDrugName q = none)
      ∧ ∀ d ∈ DRUG_NAMES, OccursWW d q →
          ∃ l1 d0 l2 s, DRUG_NAMES = l1 ++ d0 :: l2 ∧ (∀ e ∈ l1, ¬ OccursWW e q)
            ∧ OccursWW d0 q ∧ extractDrugName q = some s ∧ lowerL s = lowerL d0)
    ∧ (((∀ d ∈ THERAPY_AREAS, ¬ OccursWW d q) → extractTherapyArea q = none)
      ∧ ∀ d ∈ THERAPY_AREAS, OccursWW d q →
          ∃ l1 d0 l2 s, THERAPY_AREAS = l1 ++ d0 :: l2 ∧ (∀ e ∈ l1, ¬ OccursWW e q)
            ∧ OccursWW d0 q ∧ extractTherapyArea q = some s ∧ lowerL s = lowerL d0) :=
  ⟨searchVocab_spec DRUG_NAMES (by decide) q,
   searchVocab_spec THERAPY_AREAS (by decide) q⟩

/-- Witness for C7: `metformin` occurs (lower-case, next to punctuation)
in an ASCII query, and the extractor returns it. -/
theorem entity_extraction_whole_word_witness :
    asciiOnly (str "try metformin now!") = true
    ∧ ∃ l1 d0 l2 s, DRUG_NAMES = l1 ++ d0 :: l2
        ∧ (∀ e ∈ l1, ¬ OccursWW e (str "try metformin now!"))
        ∧ OccursWW d0 (str "try metformin now!")
        ∧ extractDrugName (str "try metformin now!") = some s
        ∧ lowerL s = lowerL d0 :=
  ⟨by decide,
   (entity_extraction_whole_word (str "try metformin now!") (by decide)).1.2
     (str "Metformin") (by decide)
     ⟨str "try ", str "metformin", str " now!", by decide, by decide, by decide, by decide⟩⟩

end DrugRepo
